import Mathlib

/-!
Verification of `ol/source/TileArcGISRest.js` (openlayers), the request-URL
builder for ArcGIS Map/Image tile services.

The source file is shallowly embedded below.  JS numbers are modelled as
rationals (`ℚ`); the parameter object is modelled as an insertion-ordered
association list (`ParamSet`), matching the `for (const key in obj)`
iteration order of string-keyed JS objects; JS scalar values are the
inductive `Value` type.  Collaborators that live in the repository but
outside the provided source (`ol/math` `modulo`, `ol/tilecoord` `hash`,
`ol/uri` `appendParams`, the tile-size helpers) are modelled from the
specification and marked as such in their doc comments.
-/

namespace TileArcGISRest

/-- A JS scalar parameter value: string, number (modelled as `ℚ`),
boolean, or the `NaN` number that arises from failed numeric coercion. -/
inductive Value where
  | vStr (s : String)
  | vNum (q : ℚ)
  | vBool (b : Bool)
  | vNaN
deriving DecidableEq, Repr

/-- A JS parameter object: insertion-ordered association list from
string keys to scalar values (string keys iterate in insertion order). -/
abbrev ParamSet := List (String × Value)

/-- Reading `obj[k]`: the value at the first entry with key `k`, if any. -/
def lookup (ps : ParamSet) (k : String) : Option Value :=
  match ps with
  | [] => none
  | e :: rest => if e.1 == k then some e.2 else lookup rest k

/-- Writing `obj[k] = v`: an existing key keeps its position in the
iteration order and gets the new value; a fresh key is appended. -/
def setParam (ps : ParamSet) (k : String) (v : Value) : ParamSet :=
  match ps with
  | [] => [(k, v)]
  | e :: rest => if e.1 == k then (k, v) :: rest else e :: setParam rest k v

/-- `assign(target, source)` from `ol/obj`: shallow merge, each entry of
`source` written into `target` in order (Object.assign semantics). -/
def assign (ps us : ParamSet) : ParamSet :=
  us.foldl (fun a e => setParam a e.1 e.2) ps

/-- `Array.prototype.join(sep)`. -/
def joinSep (sep : String) : List String → String
  | [] => ""
  | [a] => a
  | a :: b :: rest => a ++ sep ++ joinSep sep (b :: rest)

/-- Smallest exponent `k ≤ 39` with `10 ^ k` divisible by `d`: the length
of the finite decimal expansion of a fraction with denominator `d`. -/
def decExp (d : ℕ) : Option ℕ :=
  (List.range 40).find? (fun k => 10 ^ k % d == 0)

/-- Left-pads a digit string with zeros to length `k`. -/
def padZeros (s : String) (k : ℕ) : String :=
  String.mk (List.replicate (k - s.length) (Char.ofNat 48)) ++ s

/-- JS number-to-string coercion, for the values this module produces:
integers print as signed decimal numerals and fractions with a finite
decimal expansion print with a decimal point, exactly as JS prints the
corresponding doubles.  (Rationals with an infinite decimal expansion
have no exact double counterpart; they fall back to a `num/den` form.) -/
def qToString (q : ℚ) : String :=
  if q.den == 1 then toString q.num
  else
    match decExp q.den with
    | some k =>
      let n := q.num.natAbs * 10 ^ k / q.den
      (if q.num < 0 then "-" else "") ++ toString (n / 10 ^ k) ++ "." ++
        padZeros (toString (n % 10 ^ k)) k
    | none => toString q.num ++ "/" ++ toString q.den

/-- JS string coercion of a parameter value (`String(value)`). -/
def valueToString : Value → String
  | .vStr s => s
  | .vNum q => qToString q
  | .vBool b => if b then "true" else "false"
  | .vNaN => "NaN"

/-- JS truthiness of a parameter value (`value ? _ : _`). -/
def truthy : Value → Bool
  | .vStr s => !(s.isEmpty)
  | .vNum q => !(q == 0)
  | .vBool b => b
  | .vNaN => false

/-- Digit-string value; `none` when a non-digit occurs. -/
def digitsToNat (l : List Char) : Option ℕ :=
  l.foldl
    (fun acc c => acc.bind fun a =>
      if c.isDigit then some (a * 10 + (c.toNat - 48)) else none)
    (some 0)

/-- JS `ToNumber` on a string, for plain decimal literals: optional sign,
integer part, optional fraction.  `""` coerces to `0`; anything that is
not a decimal literal coerces to `NaN` (`none`).  (Whitespace trimming,
hex and exponent forms are not exercised by this module.) -/
def parseNum (s : String) : Option ℚ :=
  match s.data with
  | [] => some 0
  | l =>
    let sgn : ℚ × List Char :=
      match l with
      | c :: rest =>
        if c == Char.ofNat 45 then (-1, rest)
        else if c == Char.ofNat 43 then (1, rest)
        else (1, c :: rest)
      | [] => (1, [])
    let ip := sgn.2.takeWhile (fun c => !(c == Char.ofNat 46))
    let rest := sgn.2.dropWhile (fun c => !(c == Char.ofNat 46))
    match rest with
    | [] => if ip.isEmpty then none else (digitsToNat ip).map (fun n => sgn.1 * n)
    | _ :: fp =>
      if ip.isEmpty && fp.isEmpty then none
      else
        match digitsToNat ip, digitsToNat fp with
        | some i, some f => some (sgn.1 * ((i : ℚ) + (f : ℚ) / 10 ^ fp.length))
        | _, _ => none

/-- JS `ToNumber` coercion of a parameter value; `none` models `NaN`. -/
def jsToNum : Value → Option ℚ
  | .vNum q => some q
  | .vBool b => some (if b then 1 else 0)
  | .vNaN => none
  | .vStr s => parseNum s

/-- JS multiplication `v * r` of a parameter value by a number. -/
def jsMul (v : Value) (r : ℚ) : Value :=
  match jsToNum v with
  | some x => .vNum (x * r)
  | none => .vNaN

/-- `Math.round`: half-up rounding (towards `+∞`), `NaN` on `NaN`. -/
def jsRound (v : Value) : Value :=
  match jsToNum v with
  | some q => .vNum ((Rat.floor (q + 1/2) : ℤ) : ℚ)
  | none => .vNaN

/-- Cache key for a parameter set (`getKeyForParams_`): each entry
formatted as `key + '-' + value`, all joined with `'/'`. -/
def getKeyForParams (ps : ParamSet) : String :=
  joinSep "/" (ps.map fun e => e.1 ++ "-" ++ valueToString e.2)

/-- Hex digit (uppercase) for `n < 16`. -/
def hexDigit (n : ℕ) : Char :=
  if n < 10 then Char.ofNat (48 + n) else Char.ofNat (55 + n)

/-- Percent-escape of one byte: `%XX`. -/
def byteEscape (n : ℕ) : List Char :=
  [Char.ofNat 37, hexDigit (n / 16), hexDigit (n % 16)]

/-- UTF-8 bytes of a code point. -/
def utf8Bytes (n : ℕ) : List ℕ :=
  if n < 128 then [n]
  else if n < 2048 then [192 + n / 64, 128 + n % 64]
  else if n < 65536 then [224 + n / 4096, 128 + n / 64 % 64, 128 + n % 64]
  else [240 + n / 262144, 128 + n / 4096 % 64, 128 + n / 64 % 64, 128 + n % 64]

/-- Code points left unescaped by JS `encodeURIComponent`:
`A-Z a-z 0-9 - _ . ! ~ * ' ( )`. -/
def isUnreservedCode (n : ℕ) : Bool :=
  (48 ≤ n && n ≤ 57) || (65 ≤ n && n ≤ 90) || (97 ≤ n && n ≤ 122) ||
    n == 45 || n == 95 || n == 46 || n == 33 || n == 126 ||
    n == 42 || n == 39 || n == 40 || n == 41

/-- JS `encodeURIComponent`: unreserved characters kept, every other
character percent-escaped byte-by-byte in UTF-8. -/
def encodeURIComponent (s : String) : String :=
  String.mk (s.data.foldr
    (fun c acc =>
      (if isUnreservedCode c.toNat then [c]
       else ((utf8Bytes c.toNat).map byteEscape).flatten) ++ acc)
    [])

/-- Modelled from the spec: the URL query-string appender collaborator
(`appendParams` of `ol/uri`, not under `src/`): renders every parameter
as `key=encodedValue`, joins the pairs with `&`, and appends them after
`?`, or after `&` when the base URL already contains a query string
(merge-aware, no second `?`). -/
def appendParams (uri : String) (ps : ParamSet) : String :=
  let qs := joinSep "&" (ps.map fun e => e.1 ++ "=" ++ encodeURIComponent (valueToString e.2))
  if uri.data.contains (Char.ofNat 63) then uri ++ "&" ++ qs else uri ++ "?" ++ qs

/-- JS `String.prototype.split(c)` on character lists: `""` yields
`[""]`, a separator at either end yields empty pieces. -/
def splitOnChar (l : List Char) (c : Char) : List (List Char) :=
  match l with
  | [] => [[]]
  | a :: rest =>
    let r := splitOnChar rest c
    if a == c then [] :: r
    else
      match r with
      | [] => [[a]]
      | h :: t => (a :: h) :: t

/-- `projection.getCode().split(':').pop()`: the piece after the last
`':'` (the whole code when it has no `':'`). -/
def sridOf (code : String) : String :=
  String.mk ((splitOnChar code.data (Char.ofNat 58)).getLastD [])

/-- Whether `suf` is a suffix of `s`, by comparing the tail of `s`. -/
def endsWithList (s suf : List Char) : Bool :=
  if s.length < suf.length then false
  else s.drop (s.length - suf.length) == suf

/-- The anchored-regex replace `s.replace(/pat\/?$/, repl)` for a literal
`pat` that contains no `'/'`: when `s` ends in `pat` followed by an
optional single `'/'`, that suffix (slash included) is replaced by
`repl`; otherwise `s` is unchanged. -/
def replaceSuffixRe (s : String) (pat : String) (repl : String) : String :=
  if endsWithList s.data (pat.data ++ [Char.ofNat 47]) then
    String.mk (s.data.take (s.data.length - (pat.data.length + 1)) ++ repl.data)
  else if endsWithList s.data pat.data then
    String.mk (s.data.take (s.data.length - pat.data.length) ++ repl.data)
  else s

/-- The chained rewrite of the selected base URL in `getRequestUrl_`:
`url.replace(/MapServer\/?$/, 'MapServer/export')
   .replace(/ImageServer\/?$/, 'ImageServer/exportImage')`. -/
def rewriteUrl (url : String) : String :=
  replaceSuffixRe (replaceSuffixRe url "MapServer" "MapServer/export")
    "ImageServer" "ImageServer/exportImage"

/-- A tile coordinate `[z, x, y]`: zoom level, column, row. -/
structure TileCoord where
  z : ℕ
  x : ℤ
  y : ℤ
deriving DecidableEq, Repr

/-- Modelled from the spec: the deterministic integer hash of the tile
coordinate 3-tuple used for mirror selection (`hash` of `ol/tilecoord`,
not under `src/`). -/
def tileCoordHash (tc : TileCoord) : ℤ :=
  tc.x * 2 ^ tc.z + tc.y

/-- Modelled from the spec: the modulo reduction used for mirror
selection (`modulo` of `ol/math`, not under `src/`), mathematically
`hash mod urlCount`, nonnegative for a positive count. -/
def modulo (a : ℤ) (b : ℕ) : ℕ :=
  (a % (b : ℤ)).toNat

/-- Modelled from the spec: the tile-grid collaborator, providing the
resolution list, the tile size per zoom level (already normalised to a
width/height pair) and the extent of a tile coordinate. -/
structure TileGrid where
  resolutions : List ℚ
  tileSizeAt : ℕ → ℚ × ℚ
  tileCoordExtent : TileCoord → List ℚ

/-- The state of a `TileArcGISRest` source: the configured service URLs
(`this.urls`, `null` when unconfigured), the user parameter object
(`this.params_`), the cache key (`setKey`/`getKey` of the base class),
the optionally configured tile grid, and the scratch extent buffer
(`this.tmpExtent_`), overwritten on each build. -/
structure Builder where
  urls : Option (List String)
  params : ParamSet
  key : String
  tileGrid : Option TileGrid
  tmpExtent : List ℚ

/-- The default parameters of `fixedTileUrlFunction`:
`{'F': 'image', 'FORMAT': 'PNG32', 'TRANSPARENT': true}`. -/
def defaultBaseParams : ParamSet :=
  [("F", .vStr "image"), ("FORMAT", .vStr "PNG32"), ("TRANSPARENT", .vBool true)]

/-- `this.getTileGrid()`, falling back to
`this.getTileGridForProjection(projection)` (the fallback grid is an
external collaborator and is passed in as `gridForProjection`). -/
def gridOf (b : Builder) (gridForProjection : TileGrid) : TileGrid :=
  b.tileGrid.getD gridForProjection

/-- Tile size for the zoom level, both dimensions scaled by the pixel
ratio when it differs from `1` (`scaleSize` is modelled from the spec:
plain scaling of both dimensions). -/
def scaledTileSize (g : TileGrid) (z : ℕ) (r : ℚ) : ℚ × ℚ :=
  let s := g.tileSizeAt z
  if r ≠ 1 then (s.1 * r, s.2 * r) else s

/-- The `DPI` value written by `getRequestUrl_`:
`Math.round(params['DPI'] ? params['DPI'] * pixelRatio : 90 * pixelRatio)`. -/
def dpiValue (ps : ParamSet) (r : ℚ) : Value :=
  jsRound (match lookup ps "DPI" with
    | some v => if truthy v then jsMul v r else .vNum (90 * r)
    | none => .vNum (90 * r))

/-- The five reserved-parameter writes of `getRequestUrl_`, performed in
source order on the working parameter object. -/
def setReservedParams (params : ParamSet) (tileSize : ℚ × ℚ) (tileExtent : List ℚ)
    (pixelRatio : ℚ) (srid : String) : ParamSet :=
  let p1 := setParam params "SIZE" (.vStr (qToString tileSize.1 ++ "," ++ qToString tileSize.2))
  let p2 := setParam p1 "BBOX" (.vStr (joinSep "," (tileExtent.map qToString)))
  let p3 := setParam p2 "BBOXSR" (.vStr srid)
  let p4 := setParam p3 "IMAGESR" (.vStr srid)
  setParam p4 "DPI" (dpiValue p4 pixelRatio)

/-- Mirror selection of `getRequestUrl_`: a single configured URL is
used directly, otherwise `urls[modulo(tileCoordHash(tileCoord), urls.length)]`.
`none` models the out-of-range indexing `urls[NaN]` that an empty list
produces (`undefined`). -/
def selectUrl (urls : List String) (tc : TileCoord) : Option String :=
  if urls.length == 1 then urls[0]?
  else urls[modulo (tileCoordHash tc) urls.length]?

/-- Outcome of a URL build: a URL string, the `undefined` sentinel, or a
thrown `TypeError` (reading `.replace` of `undefined`). -/
inductive BuildResult where
  | throws
  | noUrl
  | url (s : String)
deriving DecidableEq, Repr

/-- `getRequestUrl_`: `undefined` when no URL list is configured
(`!this.urls`); otherwise writes the five reserved parameters into the
working parameter object, selects a mirror, rewrites its export
endpoint and appends the query string.  When mirror selection indexes
out of range (empty configured list) the member access
`url.replace(...)` throws. -/
def getRequestUrl (urls : Option (List String)) (tc : TileCoord) (tileSize : ℚ × ℚ)
    (tileExtent : List ℚ) (pixelRatio : ℚ) (projCode : String) (params : ParamSet) :
    BuildResult :=
  match urls with
  | none => .noUrl
  | some us =>
    let ps := setReservedParams params tileSize tileExtent pixelRatio (sridOf projCode)
    match selectUrl us tc with
    | none => .throws
    | some u => .url (appendParams (rewriteUrl u) ps)

/-- The working parameter object of `fixedTileUrlFunction`: defaults
overwritten by the stored user parameters (`assign(baseParams, this.params_)`). -/
def mergedParams (b : Builder) : ParamSet :=
  assign defaultBaseParams b.params

/-- The final parameter object a build hands to `appendParams`. -/
def finalParamsOf (b : Builder) (gridForProjection : TileGrid) (tc : TileCoord)
    (r : ℚ) (projCode : String) : ParamSet :=
  let g := gridOf b gridForProjection
  setReservedParams (mergedParams b) (scaledTileSize g tc.z r)
    (g.tileCoordExtent tc) r (sridOf projCode)

/-- `fixedTileUrlFunction(tileCoord, pixelRatio, projection)`: resolves
the active tile grid, guards the zoom level against the grid's
resolution count, computes the tile extent into the scratch buffer and
the (pixel-ratio-scaled) tile size, merges default and user parameters
and delegates to `getRequestUrl_`.  The returned pair is the build
outcome together with the updated source state (the scratch extent
buffer is the only field a build writes). -/
def fixedTileUrlFunction (b : Builder) (gridForProjection : TileGrid) (tc : TileCoord)
    (r : ℚ) (projCode : String) : BuildResult × Builder :=
  let g := gridOf b gridForProjection
  if g.resolutions.length ≤ tc.z then (.noUrl, b)
  else
    let ext := g.tileCoordExtent tc
    let size := scaledTileSize g tc.z r
    (getRequestUrl b.urls tc size ext r projCode (mergedParams b),
      { b with tmpExtent := ext })

/-- `updateParams(params)`: `assign(this.params_, params)` followed by
`this.setKey(this.getKeyForParams_())`. -/
def updateParams (b : Builder) (newParams : ParamSet) : Builder :=
  let p := assign b.params newParams
  { b with params := p, key := getKeyForParams p }

/-! ### Association-list lemmas -/

theorem strData_append (a b : String) : (a ++ b).data = a.data ++ b.data := by
  cases a
  cases b
  rfl

theorem lookup_setParam_self (ps : ParamSet) (k : String) (v : Value) :
    lookup (setParam ps k v) k = some v := by
  induction ps with
  | nil => simp [setParam, lookup]
  | cons e rest ih =>
    by_cases h : e.1 = k
    · simp [setParam, lookup, h]
    · have hb : (e.1 == k) = false := beq_eq_false_iff_ne.mpr h
      simp [setParam, lookup, hb, ih]

theorem lookup_setParam_ne (ps : ParamSet) (k k' : String) (v : Value) (h : k ≠ k') :
    lookup (setParam ps k v) k' = lookup ps k' := by
  induction ps with
  | nil =>
    simp only [setParam, lookup, beq_eq_false_iff_ne.mpr h, Bool.false_eq_true, if_false]
  | cons e rest ih =>
    by_cases he : e.1 = k
    · rw [setParam, if_pos (beq_iff_eq.mpr he)]
      rw [lookup, lookup, if_neg, if_neg]
      · rw [he, beq_eq_false_iff_ne.mpr h]
        simp
      · rw [beq_eq_false_iff_ne.mpr h]
        simp
    · rw [setParam, if_neg (by rw [beq_eq_false_iff_ne.mpr he]; simp)]
      by_cases he' : e.1 = k'
      · rw [lookup, lookup, if_pos (beq_iff_eq.mpr he'), if_pos (beq_iff_eq.mpr he')]
      · rw [lookup, lookup, if_neg, if_neg, ih]
        · rw [beq_eq_false_iff_ne.mpr he']
          simp
        · rw [beq_eq_false_iff_ne.mpr he']
          simp

theorem mem_setParam (ps : ParamSet) (k : String) (v : Value) :
    (k, v) ∈ setParam ps k v := by
  induction ps with
  | nil => simp [setParam]
  | cons e rest ih =>
    by_cases h : e.1 = k
    · simp [setParam, h]
    · simp only [setParam, beq_eq_false_iff_ne.mpr h, if_neg]
      simp only [Bool.false_eq_true, if_false]
      exact List.mem_cons_of_mem e ih

theorem assign_nil (ps : ParamSet) : assign ps [] = ps := rfl

theorem assign_cons (ps : ParamSet) (e : String × Value) (us : ParamSet) :
    assign ps (e :: us) = assign (setParam ps e.1 e.2) us := rfl

theorem lookup_eq_none_of_not_mem_keys (ps : ParamSet) (k : String)
    (h : k ∉ ps.map Prod.fst) : lookup ps k = none := by
  induction ps with
  | nil => rfl
  | cons e rest ih =>
    simp only [List.map_cons, List.mem_cons] at h
    push_neg at h
    rw [lookup, if_neg (by rw [beq_eq_false_iff_ne.mpr (fun he => h.1 he.symm)]; simp)]
    exact ih h.2

theorem lookup_assign (ps us : ParamSet) (k : String)
    (hU : (us.map Prod.fst).Nodup) :
    lookup (assign ps us) k = (lookup us k).orElse (fun _ => lookup ps k) := by
  induction us generalizing ps with
  | nil => simp [assign_nil, lookup]
  | cons e rest ih =>
    simp only [List.map_cons, List.nodup_cons] at hU
    rw [assign_cons, ih _ hU.2]
    by_cases h : e.1 = k
    · have hnot : lookup rest k = none :=
        lookup_eq_none_of_not_mem_keys rest k (h ▸ hU.1)
      rw [hnot, lookup, if_pos (beq_iff_eq.mpr h)]
      have hs : lookup (setParam ps e.1 e.2) k = some e.2 := by
        rw [← h]
        exact lookup_setParam_self ps e.1 e.2
      simp [hs]
    · rw [lookup_setParam_ne _ _ _ _ h, lookup,
        if_neg (by rw [beq_eq_false_iff_ne.mpr h]; simp)]

/-! ### Reserved-parameter lemmas -/

theorem dpiValue_congr (a b : ParamSet) (r : ℚ) (h : lookup a "DPI" = lookup b "DPI") :
    dpiValue a r = dpiValue b r := by
  rw [dpiValue, dpiValue, h]

theorem jsRound_vNum (q : ℚ) (n : ℤ) (h : Rat.floor (q + 1/2) = n) :
    jsRound (Value.vNum q) = Value.vNum (n : ℚ) := by
  have hr : jsRound (Value.vNum q) = Value.vNum ((Rat.floor (q + 1/2) : ℤ) : ℚ) := rfl
  rw [hr, h]

theorem lookup_setReserved_SIZE (ps : ParamSet) (sz : ℚ × ℚ) (ext : List ℚ)
    (r : ℚ) (srid : String) :
    lookup (setReservedParams ps sz ext r srid) "SIZE" =
      some (.vStr (qToString sz.1 ++ "," ++ qToString sz.2)) := by
  rw [setReservedParams]
  rw [lookup_setParam_ne _ _ _ _ (by decide), lookup_setParam_ne _ _ _ _ (by decide),
    lookup_setParam_ne _ _ _ _ (by decide), lookup_setParam_ne _ _ _ _ (by decide)]
  exact lookup_setParam_self _ _ _

theorem lookup_setReserved_BBOX (ps : ParamSet) (sz : ℚ × ℚ) (ext : List ℚ)
    (r : ℚ) (srid : String) :
    lookup (setReservedParams ps sz ext r srid) "BBOX" =
      some (.vStr (joinSep "," (ext.map qToString))) := by
  rw [setReservedParams]
  rw [lookup_setParam_ne _ _ _ _ (by decide), lookup_setParam_ne _ _ _ _ (by decide),
    lookup_setParam_ne _ _ _ _ (by decide)]
  exact lookup_setParam_self _ _ _

theorem lookup_setReserved_BBOXSR (ps : ParamSet) (sz : ℚ × ℚ) (ext : List ℚ)
    (r : ℚ) (srid : String) :
    lookup (setReservedParams ps sz ext r srid) "BBOXSR" = some (.vStr srid) := by
  rw [setReservedParams]
  rw [lookup_setParam_ne _ _ _ _ (by decide), lookup_setParam_ne _ _ _ _ (by decide)]
  exact lookup_setParam_self _ _ _

theorem lookup_setReserved_IMAGESR (ps : ParamSet) (sz : ℚ × ℚ) (ext : List ℚ)
    (r : ℚ) (srid : String) :
    lookup (setReservedParams ps sz ext r srid) "IMAGESR" = some (.vStr srid) := by
  rw [setReservedParams]
  rw [lookup_setParam_ne _ _ _ _ (by decide)]
  exact lookup_setParam_self _ _ _

theorem lookup_setReserved_DPI (ps : ParamSet) (sz : ℚ × ℚ) (ext : List ℚ)
    (r : ℚ) (srid : String) :
    lookup (setReservedParams ps sz ext r srid) "DPI" = some (dpiValue ps r) := by
  rw [setReservedParams, lookup_setParam_self]
  have h : lookup
      (setParam (setParam (setParam (setParam ps "SIZE"
        (.vStr (qToString sz.1 ++ "," ++ qToString sz.2)))
        "BBOX" (.vStr (joinSep "," (ext.map qToString))))
        "BBOXSR" (.vStr srid)) "IMAGESR" (.vStr srid)) "DPI" = lookup ps "DPI" := by
    rw [lookup_setParam_ne _ _ _ _ (by decide), lookup_setParam_ne _ _ _ _ (by decide),
      lookup_setParam_ne _ _ _ _ (by decide), lookup_setParam_ne _ _ _ _ (by decide)]
  rw [dpiValue_congr _ _ _ h]

/-! ### Cache-key lemmas -/

theorem joinSep_mem_split (sep : String) (l : List String) (a : String) (h : a ∈ l) :
    ∃ x y, (joinSep sep l).data = x ++ a.data ++ y := by
  induction l with
  | nil => cases h
  | cons b t ih =>
    cases t with
    | nil =>
      rcases List.mem_singleton.mp h with rfl
      exact ⟨[], [], by simp [joinSep]⟩
    | cons c t' =>
      rcases List.mem_cons.mp h with rfl | hmem
      · refine ⟨[], sep.data ++ (joinSep sep (c :: t')).data, ?_⟩
        rw [joinSep, strData_append, strData_append]
        simp
      · rcases ih hmem with ⟨x, y, hxy⟩
        refine ⟨b.data ++ sep.data ++ x, y, ?_⟩
        rw [joinSep, strData_append, strData_append, hxy]
        simp

theorem setParam_eq_append_of_lookup_none (ps : ParamSet) (k : String) (v : Value)
    (h : lookup ps k = none) : setParam ps k v = ps ++ [(k, v)] := by
  induction ps with
  | nil => rfl
  | cons e rest ih =>
    rw [lookup] at h
    by_cases he : e.1 = k
    · rw [if_pos (beq_iff_eq.mpr he)] at h
      cases h
    · rw [if_neg (by rw [beq_eq_false_iff_ne.mpr he]; simp)] at h
      rw [setParam, if_neg (by rw [beq_eq_false_iff_ne.mpr he]; simp), ih h]
      rfl

theorem joinSep_length_append (sep : String) (l : List String) (a : String) :
    (joinSep sep (l ++ [a])).length =
      if l = [] then a.length else (joinSep sep l).length + sep.length + a.length := by
  induction l with
  | nil => simp [joinSep]
  | cons b t ih =>
    cases t with
    | nil => simp [joinSep, String.length_append]
    | cons c t' =>
      have h1 : joinSep sep ((b :: c :: t') ++ [a]) =
          b ++ sep ++ joinSep sep ((c :: t') ++ [a]) := rfl
      have h2 : joinSep sep (b :: c :: t') = b ++ sep ++ joinSep sep (c :: t') := rfl
      rw [h1, h2, String.length_append, String.length_append,
        String.length_append, String.length_append, ih]
      simp only [List.cons_ne_nil, if_false, reduceIte]
      omega

theorem joinSep_append_length_lt (sep : String) (l : List String) (a : String)
    (ha : 0 < a.length) :
    (joinSep sep l).length < (joinSep sep (l ++ [a])).length := by
  rw [joinSep_length_append]
  by_cases hl : l = []
  · subst hl
    have h0 : (joinSep sep []).length = 0 := rfl
    rw [if_pos rfl]
    omega
  · rw [if_neg hl]
    omega

theorem getKeyForParams_fresh_ne (ps : ParamSet) (k : String) (v : Value)
    (h : lookup ps k = none) :
    getKeyForParams (setParam ps k v) ≠ getKeyForParams ps := by
  rw [setParam_eq_append_of_lookup_none ps k v h]
  intro heq
  have hlen := congrArg String.length heq
  rw [getKeyForParams, getKeyForParams, List.map_append, List.map_cons, List.map_nil] at hlen
  have hlen' : (joinSep "/" (List.map (fun e => e.1 ++ "-" ++ valueToString e.2) ps ++
      [k ++ "-" ++ valueToString v])).length =
      (joinSep "/" (List.map (fun e => e.1 ++ "-" ++ valueToString e.2) ps)).length := hlen
  have hentry : 0 < (k ++ "-" ++ valueToString v).length := by
    rw [String.length_append, String.length_append]
    have : ("-" : String).length = 1 := rfl
    omega
  have := joinSep_append_length_lt "/" (ps.map fun e => e.1 ++ "-" ++ valueToString e.2)
    (k ++ "-" ++ valueToString v) hentry
  omega

/-! ### Mirror-selection lemmas -/

theorem modulo_lt (a : ℤ) (b : ℕ) (h : 0 < b) : modulo a b < b := by
  have h0 : (0 : ℤ) < (b : ℤ) := by exact_mod_cast h
  have h1 := Int.emod_nonneg a (by omega : (b : ℤ) ≠ 0)
  have h2 := Int.emod_lt_of_pos a h0
  rw [modulo]
  omega

theorem selectUrl_single (u : String) (tc : TileCoord) : selectUrl [u] tc = some u := rfl

theorem selectUrl_isSome (urls : List String) (tc : TileCoord) (h : urls ≠ []) :
    ∃ u, selectUrl urls tc = some u := by
  rw [selectUrl]
  by_cases h1 : urls.length = 1
  · rw [if_pos (by simpa using h1)]
    have h0 : 0 < urls.length := by omega
    exact ⟨urls[0], List.getElem?_eq_getElem h0⟩
  · rw [if_neg (by simpa using h1)]
    have hpos : 0 < urls.length := List.length_pos.mpr h
    have hlt := modulo_lt (tileCoordHash tc) urls.length hpos
    exact ⟨urls[modulo (tileCoordHash tc) urls.length], List.getElem?_eq_getElem hlt⟩

theorem selectUrl_multi (urls : List String) (tc : TileCoord) (h : 1 < urls.length) :
    selectUrl urls tc = urls[modulo (tileCoordHash tc) urls.length]? := by
  rw [selectUrl, if_neg (by simp; omega)]

/-! ### URL-rewrite lemmas -/

theorem strMk_append (a b : String) : String.mk (a.data ++ b.data) = a ++ b := by
  cases a
  cases b
  rfl

theorem endsWithList_append (p suf : List Char) : endsWithList (p ++ suf) suf = true := by
  rw [endsWithList, if_neg (by rw [List.length_append]; omega)]
  rw [List.drop_left' (by rw [List.length_append]; omega)]
  exact beq_self_eq_true suf

theorem endsWithList_suffix (s suf : List Char) (h : endsWithList s suf = true) :
    suf <:+ s := by
  rw [endsWithList] at h
  by_cases hlt : s.length < suf.length
  · rw [if_pos hlt] at h
    cases h
  · rw [if_neg hlt] at h
    have := eq_of_beq h
    rw [← this]
    exact List.drop_suffix _ _

theorem not_endsWithList_of_getLast_ne (s suf : List Char) (hne : suf ≠ [])
    (h : suf.getLast? ≠ s.getLast?) : endsWithList s suf = false := by
  by_cases hb : endsWithList s suf = true
  · exfalso
    rcases endsWithList_suffix s suf hb with ⟨t, rfl⟩
    exact h (List.getLast?_append_of_ne_nil t hne).symm
  · exact Bool.not_eq_true _ ▸ Bool.of_not_eq_true hb

theorem endsWithList_false_of_pair (a b : List Char) (hab : ¬ a <:+ b) (hba : ¬ b <:+ a)
    (s : List Char) (hb : b <:+ s) : endsWithList s a = false := by
  by_cases h : endsWithList s a = true
  · exact absurd (List.suffix_or_suffix_of_suffix (endsWithList_suffix s a h) hb)
      (by rintro (h1 | h2)
          · exact hab h1
          · exact hba h2)
  · exact Bool.of_not_eq_true h

theorem replaceSuffixRe_hit (p pat repl : String) (hpat : pat.data ≠ [])
    (hlast : pat.data.getLast? ≠ some (Char.ofNat 47)) :
    replaceSuffixRe (p ++ pat) pat repl = p ++ repl := by
  rw [replaceSuffixRe]
  have hd : (p ++ pat).data = p.data ++ pat.data := strData_append p pat
  have hc1 : endsWithList (p ++ pat).data (pat.data ++ [Char.ofNat 47]) = false := by
    rw [hd]
    refine not_endsWithList_of_getLast_ne _ _ (by simp) ?_
    rw [List.getLast?_concat, List.getLast?_append_of_ne_nil p.data hpat]
    exact fun he => hlast he.symm
  have hc2 : endsWithList (p ++ pat).data pat.data = true := by
    rw [hd]
    exact endsWithList_append p.data pat.data
  rw [hc1, hc2]
  simp only [Bool.false_eq_true, if_false, if_true]
  rw [hd, List.length_append, Nat.add_sub_cancel,
    List.take_left' rfl, strMk_append]

theorem replaceSuffixRe_hit_slash (p pat repl : String) :
    replaceSuffixRe (p ++ pat ++ "/") pat repl = p ++ repl := by
  rw [replaceSuffixRe]
  have hd : (p ++ pat ++ "/").data = p.data ++ (pat.data ++ [Char.ofNat 47]) := by
    rw [strData_append, strData_append, List.append_assoc]
  have hc1 : endsWithList (p ++ pat ++ "/").data (pat.data ++ [Char.ofNat 47]) = true := by
    rw [hd]
    exact endsWithList_append _ _
  rw [hc1]
  simp only [if_true]
  rw [hd, List.length_append, List.length_append, List.length_singleton,
    Nat.add_sub_cancel, List.take_left' rfl, strMk_append]

theorem replaceSuffixRe_miss (s pat repl : String)
    (h1 : endsWithList s.data (pat.data ++ [Char.ofNat 47]) = false)
    (h2 : endsWithList s.data pat.data = false) :
    replaceSuffixRe s pat repl = s := by
  rw [replaceSuffixRe, h1, h2]
  simp

theorem strAppend_assoc (a b c : String) : a ++ b ++ c = a ++ (b ++ c) := by
  cases a
  cases b
  cases c
  exact congrArg String.mk (List.append_assoc _ _ _)

theorem rewriteUrl_mapServer (p : String) :
    rewriteUrl (p ++ "MapServer") = p ++ "MapServer/export" := by
  rw [rewriteUrl, replaceSuffixRe_hit p "MapServer" "MapServer/export" (by decide) (by decide)]
  apply replaceSuffixRe_miss
  · rw [strData_append]
    refine not_endsWithList_of_getLast_ne _ _ (by simp) ?_
    rw [List.getLast?_concat, List.getLast?_append_of_ne_nil _ (by decide)]
    decide
  · rw [strData_append]
    refine not_endsWithList_of_getLast_ne _ _ (by decide) ?_
    rw [List.getLast?_append_of_ne_nil _ (by decide)]
    decide

theorem rewriteUrl_mapServer_slash (p : String) :
    rewriteUrl (p ++ "MapServer/") = p ++ "MapServer/export" := by
  have hs : ("MapServer" : String) ++ "/" = "MapServer/" := by decide
  rw [← hs, ← strAppend_assoc]
  rw [rewriteUrl, replaceSuffixRe_hit_slash p "MapServer" "MapServer/export"]
  apply replaceSuffixRe_miss
  · rw [strData_append]
    refine not_endsWithList_of_getLast_ne _ _ (by simp) ?_
    rw [List.getLast?_concat, List.getLast?_append_of_ne_nil _ (by decide)]
    decide
  · rw [strData_append]
    refine not_endsWithList_of_getLast_ne _ _ (by decide) ?_
    rw [List.getLast?_append_of_ne_nil _ (by decide)]
    decide

theorem rewriteUrl_imageServer (p : String) :
    rewriteUrl (p ++ "ImageServer") = p ++ "ImageServer/exportImage" := by
  rw [rewriteUrl]
  have hm : replaceSuffixRe (p ++ "ImageServer") "MapServer" "MapServer/export" =
      p ++ "ImageServer" := by
    apply replaceSuffixRe_miss
    · rw [strData_append]
      refine not_endsWithList_of_getLast_ne _ _ (by simp) ?_
      rw [List.getLast?_concat, List.getLast?_append_of_ne_nil _ (by decide)]
      decide
    · rw [strData_append]
      refine endsWithList_false_of_pair _ "ImageServer".data (by decide) (by decide) _ ?_
      exact List.suffix_append p.data "ImageServer".data
  rw [hm]
  exact replaceSuffixRe_hit p "ImageServer" "ImageServer/exportImage" (by decide) (by decide)

theorem rewriteUrl_imageServer_slash (p : String) :
    rewriteUrl (p ++ "ImageServer/") = p ++ "ImageServer/exportImage" := by
  rw [rewriteUrl]
  have hm : replaceSuffixRe (p ++ "ImageServer/") "MapServer" "MapServer/export" =
      p ++ "ImageServer/" := by
    apply replaceSuffixRe_miss
    · rw [strData_append]
      refine endsWithList_false_of_pair _ "ImageServer/".data (by decide) (by decide) _ ?_
      exact List.suffix_append p.data "ImageServer/".data
    · rw [strData_append]
      refine not_endsWithList_of_getLast_ne _ _ (by decide) ?_
      rw [List.getLast?_append_of_ne_nil _ (by decide)]
      decide
  rw [hm]
  have hs : ("ImageServer" : String) ++ "/" = "ImageServer/" := by decide
  rw [← hs, ← strAppend_assoc]
  exact replaceSuffixRe_hit_slash p "ImageServer" "ImageServer/exportImage"

theorem rewriteUrl_miss (u : String)
    (h1 : endsWithList u.data ("MapServer".data ++ [Char.ofNat 47]) = false)
    (h2 : endsWithList u.data "MapServer".data = false)
    (h3 : endsWithList u.data ("ImageServer".data ++ [Char.ofNat 47]) = false)
    (h4 : endsWithList u.data "ImageServer".data = false) :
    rewriteUrl u = u := by
  rw [rewriteUrl, replaceSuffixRe_miss u _ _ h1 h2, replaceSuffixRe_miss u _ _ h3 h4]

/-! ### Build-pipeline lemmas -/

theorem fixed_fst_eq (b : Builder) (gfp : TileGrid) (tc : TileCoord) (r : ℚ) (code : String)
    (h : ¬ (gridOf b gfp).resolutions.length ≤ tc.z) :
    (fixedTileUrlFunction b gfp tc r code).1 =
      getRequestUrl b.urls tc (scaledTileSize (gridOf b gfp) tc.z r)
        ((gridOf b gfp).tileCoordExtent tc) r code (mergedParams b) := by
  simp only [fixedTileUrlFunction, if_neg h]

theorem fixed_snd_frame (b : Builder) (gfp : TileGrid) (tc : TileCoord) (r : ℚ)
    (code : String) :
    (fixedTileUrlFunction b gfp tc r code).2.urls = b.urls ∧
    (fixedTileUrlFunction b gfp tc r code).2.params = b.params ∧
    (fixedTileUrlFunction b gfp tc r code).2.key = b.key ∧
    (fixedTileUrlFunction b gfp tc r code).2.tileGrid = b.tileGrid := by
  by_cases h : (gridOf b gfp).resolutions.length ≤ tc.z
  · simp [fixedTileUrlFunction, if_pos h]
  · simp [fixedTileUrlFunction, if_neg h]

theorem fixed_fst_congr (b₁ b₂ : Builder) (gfp : TileGrid) (tc : TileCoord) (r : ℚ)
    (code : String) (hu : b₁.urls = b₂.urls) (hp : b₁.params = b₂.params)
    (hg : b₁.tileGrid = b₂.tileGrid) :
    (fixedTileUrlFunction b₁ gfp tc r code).1 = (fixedTileUrlFunction b₂ gfp tc r code).1 := by
  cases b₁ with
  | mk u1 p1 k1 g1 e1 =>
    cases b₂ with
    | mk u2 p2 k2 g2 e2 =>
      simp only at hu hp hg
      subst hu
      subst hp
      subst hg
      by_cases h : (g1.getD gfp).resolutions.length ≤ tc.z
      · simp [fixedTileUrlFunction, gridOf, if_pos h]
      · simp [fixedTileUrlFunction, gridOf, if_neg h, mergedParams]

/-! ### Claim theorems -/

/-- C7: the rewrite step maps a base URL ending in `MapServer` (optionally
with one trailing slash) to the same URL with root `.../MapServer/export`,
maps a URL ending in `ImageServer` (optionally with trailing slash) to
root `.../ImageServer/exportImage`, and leaves any URL matching neither
pattern unmodified.  `rewriteUrl` is a total function, so no input can
raise an error. -/
theorem C7_url_rewrite (p u : String)
    (h1 : endsWithList u.data ("MapServer".data ++ [Char.ofNat 47]) = false)
    (h2 : endsWithList u.data "MapServer".data = false)
    (h3 : endsWithList u.data ("ImageServer".data ++ [Char.ofNat 47]) = false)
    (h4 : endsWithList u.data "ImageServer".data = false) :
    rewriteUrl (p ++ "MapServer") = p ++ "MapServer/export" ∧
    rewriteUrl (p ++ "MapServer/") = p ++ "MapServer/export" ∧
    rewriteUrl (p ++ "ImageServer") = p ++ "ImageServer/exportImage" ∧
    rewriteUrl (p ++ "ImageServer/") = p ++ "ImageServer/exportImage" ∧
    rewriteUrl u = u :=
  ⟨rewriteUrl_mapServer p, rewriteUrl_mapServer_slash p, rewriteUrl_imageServer p,
    rewriteUrl_imageServer_slash p, rewriteUrl_miss u h1 h2 h3 h4⟩

/-- Witness for C7 at a concrete service root and a concrete
non-matching URL. -/
theorem C7_url_rewrite_witness :
    rewriteUrl ("https://host/arcgis/rest/services/X/" ++ "MapServer") =
      "https://host/arcgis/rest/services/X/" ++ "MapServer/export" ∧
    rewriteUrl ("https://host/arcgis/rest/services/X/" ++ "MapServer/") =
      "https://host/arcgis/rest/services/X/" ++ "MapServer/export" ∧
    rewriteUrl ("https://host/arcgis/rest/services/X/" ++ "ImageServer") =
      "https://host/arcgis/rest/services/X/" ++ "ImageServer/exportImage" ∧
    rewriteUrl ("https://host/arcgis/rest/services/X/" ++ "ImageServer/") =
      "https://host/arcgis/rest/services/X/" ++ "ImageServer/exportImage" ∧
    rewriteUrl "https://host/already/export" = "https://host/already/export" :=
  C7_url_rewrite "https://host/arcgis/rest/services/X/" "https://host/already/export"
    (by decide) (by decide) (by decide) (by decide)

/-- C3 counterexample: two parameter sets with different entries share
the cache key `"A-b-c"`, and an update that changes the values of both
entries of a stored set leaves its cache key `"A-1/B-2/B-2"` unchanged,
so cache-key equality does not coincide with content equality. -/
theorem C3_counterexample :
    (getKeyForParams [("A", Value.vStr "b-c")] = getKeyForParams [("A-b", Value.vStr "c")] ∧
      ([("A", Value.vStr "b-c")] : ParamSet) ≠ [("A-b", Value.vStr "c")]) ∧
    (getKeyForParams (assign [("A", Value.vStr "1"), ("B", Value.vStr "2/B-2")]
        [("A", Value.vStr "1/B-2"), ("B", Value.vStr "2")]) =
      getKeyForParams [("A", Value.vStr "1"), ("B", Value.vStr "2/B-2")] ∧
      assign [("A", Value.vStr "1"), ("B", Value.vStr "2/B-2")]
          [("A", Value.vStr "1/B-2"), ("B", Value.vStr "2")] ≠
        [("A", Value.vStr "1"), ("B", Value.vStr "2/B-2")]) := by
  decide

/-- C3 amended: the cache key is a deterministic function of the ordered
entries (equal parameter sets give equal keys), an empty update leaves
it unchanged, and an update introducing a fresh key always changes it;
but the converse direction of the claim fails: distinct parameter sets
can collide on one cache key, and an update that only changes values of
existing keys can leave the key unchanged (see the counterexample). -/
theorem C3_cache_key_amended (P Q : ParamSet) (k : String) (v : Value)
    (hPQ : P = Q) (hk : lookup P k = none) :
    getKeyForParams P = getKeyForParams Q ∧
    getKeyForParams (assign P []) = getKeyForParams P ∧
    getKeyForParams (assign P [(k, v)]) ≠ getKeyForParams P := by
  refine ⟨congrArg _ hPQ, rfl, ?_⟩
  exact getKeyForParams_fresh_ne P k v hk

/-- Witness for C3 amended at a concrete set and fresh key. -/
theorem C3_cache_key_amended_witness :
    getKeyForParams [("A", Value.vStr "1")] = getKeyForParams [("A", Value.vStr "1")] ∧
    getKeyForParams (assign [("A", Value.vStr "1")] []) =
      getKeyForParams [("A", Value.vStr "1")] ∧
    getKeyForParams (assign [("A", Value.vStr "1")] [("B", Value.vNum 2)]) ≠
      getKeyForParams [("A", Value.vStr "1")] :=
  C3_cache_key_amended [("A", Value.vStr "1")] [("A", Value.vStr "1")] "B" (Value.vNum 2)
    rfl (by decide)

/-- C2 counterexample: with a configured but empty URL list and a valid
zoom level the build neither returns a URL nor the `undefined` sentinel:
`urls[modulo(hash, 0)]` is `undefined` and reading `.replace` of it
throws, contradicting both the advertised no-throw guarantee and the
claimed equivalence (an empty list means no non-empty URL list is
configured, yet the result is not `undefined`). -/
theorem C2_counterexample :
    (fixedTileUrlFunction ⟨some [], [], "", none, []⟩
        ⟨[1], fun _ => ((256 : ℚ), 256), fun _ => [0, 0, 100, 100]⟩
        ⟨0, 0, 0⟩ 1 "EPSG:3857").1 = .throws := by
  decide

/-- C2 amended: when the configured URL list is absent or non-empty, the
build returns `undefined` exactly when no URL list is configured or the
active grid has fewer resolutions than zoom + 1, and never throws; a
configured empty list instead throws (see the counterexample). -/
theorem C2_undefined_iff (b : Builder) (gfp : TileGrid) (tc : TileCoord) (r : ℚ)
    (code : String) (h : ∀ l, b.urls = some l → l ≠ []) :
    ((fixedTileUrlFunction b gfp tc r code).1 = .noUrl ↔
      (b.urls = none ∨ (gridOf b gfp).resolutions.length ≤ tc.z)) ∧
    (fixedTileUrlFunction b gfp tc r code).1 ≠ .throws := by
  by_cases hz : (gridOf b gfp).resolutions.length ≤ tc.z
  · constructor
    · simp [fixedTileUrlFunction, if_pos hz, hz]
    · simp [fixedTileUrlFunction, if_pos hz]
  · rw [fixed_fst_eq b gfp tc r code hz]
    cases hurls : b.urls with
    | none => simp [getRequestUrl]
    | some us =>
      obtain ⟨u, hsel⟩ := selectUrl_isSome us tc (h us hurls)
      constructor
      · simp [getRequestUrl, hsel, hz]
      · simp [getRequestUrl, hsel]

/-- Witness for C2 amended at a single-URL configuration. -/
theorem C2_undefined_iff_witness :
    (((fixedTileUrlFunction ⟨some ["https://h/S/MapServer"], [], "", none, []⟩
        ⟨[1], fun _ => ((256 : ℚ), 256), fun _ => [0, 0, 100, 100]⟩
        ⟨0, 0, 0⟩ 1 "EPSG:3857").1 = .noUrl ↔
      ((⟨some ["https://h/S/MapServer"], [], "", none, []⟩ : Builder).urls = none ∨
        (gridOf ⟨some ["https://h/S/MapServer"], [], "", none, []⟩
          ⟨[1], fun _ => ((256 : ℚ), 256), fun _ => [0, 0, 100, 100]⟩).resolutions.length ≤
          (⟨0, 0, 0⟩ : TileCoord).z)) ∧
    (fixedTileUrlFunction ⟨some ["https://h/S/MapServer"], [], "", none, []⟩
        ⟨[1], fun _ => ((256 : ℚ), 256), fun _ => [0, 0, 100, 100]⟩
        ⟨0, 0, 0⟩ 1 "EPSG:3857").1 ≠ .throws) :=
  C2_undefined_iff ⟨some ["https://h/S/MapServer"], [], "", none, []⟩
    ⟨[1], fun _ => ((256 : ℚ), 256), fun _ => [0, 0, 100, 100]⟩ ⟨0, 0, 0⟩ 1 "EPSG:3857"
    (by intro l hl
        injection hl with hl2
        subst hl2
        simp)

/-- C8: with a single configured URL the builder uses it for every tile
coordinate; with more than one it uses the URL at index
`modulo(tileCoordHash(tileCoord), urls.length)`, a deterministic
function of the coordinate, so identical coordinates always select the
identical URL. -/
theorem C8_mirror_selection (us : List String) (tc : TileCoord) (size : ℚ × ℚ)
    (ext : List ℚ) (r : ℚ) (code : String) (params : ParamSet) :
    (∀ u, us = [u] →
      getRequestUrl (some us) tc size ext r code params =
        .url (appendParams (rewriteUrl u)
          (setReservedParams params size ext r (sridOf code)))) ∧
    (1 < us.length → ∀ u, us[modulo (tileCoordHash tc) us.length]? = some u →
      getRequestUrl (some us) tc size ext r code params =
        .url (appendParams (rewriteUrl u)
          (setReservedParams params size ext r (sridOf code)))) := by
  constructor
  · rintro u rfl
    simp only [getRequestUrl, selectUrl_single]
  · intro h u hu
    simp only [getRequestUrl, selectUrl_multi us tc h, hu]

/-- Witness for C8: mirror selection evaluated for a one-URL and a
three-URL configuration (hash 7 mod 3 picks index 1). -/
theorem C8_mirror_selection_witness :
    getRequestUrl (some ["https://a/MapServer"]) ⟨1, 2, 3⟩ ((256 : ℚ), 256)
        [0, 0, 1, 1] 1 "EPSG:3857" [] =
      .url (appendParams (rewriteUrl "https://a/MapServer")
        (setReservedParams [] ((256 : ℚ), 256) [0, 0, 1, 1] 1 (sridOf "EPSG:3857"))) ∧
    getRequestUrl (some ["https://a/MapServer", "https://b/MapServer", "https://c/MapServer"])
        ⟨1, 2, 3⟩ ((256 : ℚ), 256) [0, 0, 1, 1] 1 "EPSG:3857" [] =
      .url (appendParams (rewriteUrl "https://b/MapServer")
        (setReservedParams [] ((256 : ℚ), 256) [0, 0, 1, 1] 1 (sridOf "EPSG:3857"))) :=
  ⟨(C8_mirror_selection ["https://a/MapServer"] ⟨1, 2, 3⟩ ((256 : ℚ), 256)
      [0, 0, 1, 1] 1 "EPSG:3857" []).1 "https://a/MapServer" rfl,
    (C8_mirror_selection ["https://a/MapServer", "https://b/MapServer", "https://c/MapServer"]
      ⟨1, 2, 3⟩ ((256 : ℚ), 256) [0, 0, 1, 1] 1 "EPSG:3857" []).2 (by decide)
      "https://b/MapServer" (by decide)⟩

/-- C1: whatever the user parameter set contains — including explicit
entries for the five reserved keys — the parameter object a build hands
to the query-string appender carries the builder-derived values for
`SIZE`, `BBOX`, `BBOXSR`, `IMAGESR` and `DPI`, and every URL the build
produces is the rewritten base URL with exactly that parameter object
appended. -/
theorem C1_reserved_overwritten :
    (∀ (defaults user : ParamSet) (size : ℚ × ℚ) (ext : List ℚ) (r : ℚ) (srid : String),
      lookup (setReservedParams (assign defaults user) size ext r srid) "SIZE" =
        some (.vStr (qToString size.1 ++ "," ++ qToString size.2)) ∧
      lookup (setReservedParams (assign defaults user) size ext r srid) "BBOX" =
        some (.vStr (joinSep "," (ext.map qToString))) ∧
      lookup (setReservedParams (assign defaults user) size ext r srid) "BBOXSR" =
        some (.vStr srid) ∧
      lookup (setReservedParams (assign defaults user) size ext r srid) "IMAGESR" =
        some (.vStr srid) ∧
      lookup (setReservedParams (assign defaults user) size ext r srid) "DPI" =
        some (dpiValue (assign defaults user) r)) ∧
    (∀ (b : Builder) (gfp : TileGrid) (tc : TileCoord) (r : ℚ) (code : String) (s : String),
      (fixedTileUrlFunction b gfp tc r code).1 = .url s →
      ∃ u, s = appendParams (rewriteUrl u) (finalParamsOf b gfp tc r code)) := by
  constructor
  · intro defaults user size ext r srid
    exact ⟨lookup_setReserved_SIZE _ _ _ _ _, lookup_setReserved_BBOX _ _ _ _ _,
      lookup_setReserved_BBOXSR _ _ _ _ _, lookup_setReserved_IMAGESR _ _ _ _ _,
      lookup_setReserved_DPI _ _ _ _ _⟩
  · intro b gfp tc r code s hs
    by_cases hz : (gridOf b gfp).resolutions.length ≤ tc.z
    · simp [fixedTileUrlFunction, if_pos hz] at hs
    · rw [fixed_fst_eq b gfp tc r code hz] at hs
      cases hurls : b.urls with
      | none =>
        rw [hurls] at hs
        simp [getRequestUrl] at hs
      | some us =>
        rw [hurls] at hs
        cases hsel : selectUrl us tc with
        | none =>
          simp [getRequestUrl, hsel] at hs
        | some u =>
          simp only [getRequestUrl, hsel] at hs
          injection hs with hinj
          exact ⟨u, hinj.symm⟩

/-- Witness for C1: a user set that overrides `SIZE` and `BBOX` still
yields the builder-derived values, and a concrete build produces
exactly the appended URL. -/
theorem C1_reserved_overwritten_witness :
    lookup (setReservedParams
        (assign defaultBaseParams [("BBOX", Value.vStr "user"), ("SIZE", Value.vStr "user")])
        ((256 : ℚ), 256) [0, 0, 100, 100] 1 "3857") "SIZE" = some (Value.vStr "256,256") ∧
    lookup (setReservedParams
        (assign defaultBaseParams [("BBOX", Value.vStr "user"), ("SIZE", Value.vStr "user")])
        ((256 : ℚ), 256) [0, 0, 100, 100] 1 "3857") "BBOX" = some (Value.vStr "0,0,100,100") ∧
    (∃ u, appendParams (rewriteUrl "https://h/S/MapServer")
        (finalParamsOf ⟨some ["https://h/S/MapServer"], [], "", none, []⟩
          ⟨[1], fun _ => ((256 : ℚ), 256), fun _ => [0, 0, 100, 100]⟩ ⟨0, 0, 0⟩ 1 "EPSG:3857") =
      appendParams (rewriteUrl u)
        (finalParamsOf ⟨some ["https://h/S/MapServer"], [], "", none, []⟩
          ⟨[1], fun _ => ((256 : ℚ), 256), fun _ => [0, 0, 100, 100]⟩ ⟨0, 0, 0⟩ 1 "EPSG:3857")) := by
  refine ⟨?_, ?_, ?_⟩
  · have h := (C1_reserved_overwritten.1 defaultBaseParams
      [("BBOX", Value.vStr "user"), ("SIZE", Value.vStr "user")]
      ((256 : ℚ), 256) [0, 0, 100, 100] 1 "3857").1
    rw [h]
    decide
  · have h := (C1_reserved_overwritten.1 defaultBaseParams
      [("BBOX", Value.vStr "user"), ("SIZE", Value.vStr "user")]
      ((256 : ℚ), 256) [0, 0, 100, 100] 1 "3857").2.1
    rw [h]
    decide
  · exact C1_reserved_overwritten.2 ⟨some ["https://h/S/MapServer"], [], "", none, []⟩
      ⟨[1], fun _ => ((256 : ℚ), 256), fun _ => [0, 0, 100, 100]⟩ ⟨0, 0, 0⟩ 1 "EPSG:3857" _ rfl

/-- C4 counterexample: a present `DPI` entry with the falsy value `0`
and pixel ratio `2` yields `DPI=180` in the final parameters, not the
claimed `round(0 × 2) = 0`: the source tests JS truthiness of the
stored value, not presence of the entry. -/
theorem C4_counterexample :
    lookup (mergedParams ⟨some ["https://h/S/MapServer"], [("DPI", Value.vNum 0)], "", none, []⟩)
        "DPI" = some (Value.vNum 0) ∧
    lookup (finalParamsOf ⟨some ["https://h/S/MapServer"], [("DPI", Value.vNum 0)], "", none, []⟩
        ⟨[1], fun _ => ((256 : ℚ), 256), fun _ => [0, 0, 100, 100]⟩ ⟨0, 0, 0⟩ 2 "EPSG:3857")
        "DPI" = some (Value.vNum 180) ∧
    Value.vNum 180 ≠ jsRound (jsMul (Value.vNum 0) 2) := by
  refine ⟨by decide, ?_, ?_⟩
  · have hd : lookup (finalParamsOf
        ⟨some ["https://h/S/MapServer"], [("DPI", Value.vNum 0)], "", none, []⟩
        ⟨[1], fun _ => ((256 : ℚ), 256), fun _ => [0, 0, 100, 100]⟩ ⟨0, 0, 0⟩ 2 "EPSG:3857")
        "DPI" = some (dpiValue (mergedParams
          ⟨some ["https://h/S/MapServer"], [("DPI", Value.vNum 0)], "", none, []⟩) 2) :=
      lookup_setReserved_DPI _ _ _ _ _
    rw [hd, dpiValue]
    have hl : lookup (mergedParams
        ⟨some ["https://h/S/MapServer"], [("DPI", Value.vNum 0)], "", none, []⟩) "DPI" =
        some (Value.vNum 0) := by decide
    rw [hl]
    show some (jsRound (if truthy (Value.vNum 0) = true then jsMul (Value.vNum 0) 2
      else Value.vNum (90 * 2))) = some (Value.vNum 180)
    rw [if_neg (by decide)]
    rw [jsRound_vNum (90 * 2) 180 (by norm_num [Rat.floor_def'])]
    norm_num
  · have hm : jsMul (Value.vNum 0) 2 = Value.vNum (0 * 2) := rfl
    rw [hm, jsRound_vNum (0 * 2) 0 (by norm_num [Rat.floor_def'])]
    intro h
    rw [Value.vNum.injEq] at h
    norm_num at h

/-- C4 amended: the `DPI` parameter equals `round(DPI × pixelRatio)`
when the merged parameters hold a truthy `DPI` entry, and
`round(90 × pixelRatio)` when the entry is absent — or present but
falsy (`0`, `""`, `false`), the case the original claim misses. -/
theorem C4_dpi_amended (ps : ParamSet) (size : ℚ × ℚ) (ext : List ℚ) (r : ℚ)
    (srid : String) :
    (∀ v, lookup ps "DPI" = some v → truthy v = true →
      lookup (setReservedParams ps size ext r srid) "DPI" = some (jsRound (jsMul v r))) ∧
    (lookup ps "DPI" = none →
      lookup (setReservedParams ps size ext r srid) "DPI" =
        some (jsRound (.vNum (90 * r)))) ∧
    (∀ v, lookup ps "DPI" = some v → truthy v = false →
      lookup (setReservedParams ps size ext r srid) "DPI" =
        some (jsRound (.vNum (90 * r)))) := by
  refine ⟨?_, ?_, ?_⟩
  · intro v hv ht
    rw [lookup_setReserved_DPI, dpiValue, hv]
    simp [ht]
  · intro hnone
    rw [lookup_setReserved_DPI, dpiValue, hnone]
  · intro v hv ht
    rw [lookup_setReserved_DPI, dpiValue, hv]
    simp [ht]

/-- Witness for C4 amended: `DPI=96` with pixel ratio `2` gives
`DPI=192`; no `DPI` entry with pixel ratio `2` gives `DPI=180`. -/
theorem C4_dpi_amended_witness :
    lookup (setReservedParams [("DPI", Value.vNum 96)] ((256 : ℚ), 256) [0, 0, 1, 1] 2 "3857")
        "DPI" = some (Value.vNum 192) ∧
    lookup (setReservedParams [] ((256 : ℚ), 256) [0, 0, 1, 1] 2 "3857")
        "DPI" = some (Value.vNum 180) := by
  constructor
  · have h := (C4_dpi_amended [("DPI", Value.vNum 96)] ((256 : ℚ), 256) [0, 0, 1, 1] 2
      "3857").1 (Value.vNum 96) (by decide) (by decide)
    rw [h]
    have hm : jsMul (Value.vNum 96) 2 = Value.vNum (96 * 2) := rfl
    rw [hm, jsRound_vNum (96 * 2) 192 (by norm_num [Rat.floor_def'])]
    norm_num
  · have h := (C4_dpi_amended [] ((256 : ℚ), 256) [0, 0, 1, 1] 2 "3857").2.1 (by decide)
    rw [h]
    rw [jsRound_vNum (90 * 2) 180 (by norm_num [Rat.floor_def'])]
    norm_num

/-- C5: the final parameters carry `SIZE` as the two pixel dimensions
comma-joined, `BBOX` as the four extent numbers comma-joined in order,
and `BBOXSR` and `IMAGESR` both equal to the piece of the projection
code after the last `':'`; the tile size entering a build is scaled by
the pixel ratio in both dimensions when the ratio differs from `1`. -/
theorem C5_size_bbox_srid (ps : ParamSet) (size : ℚ × ℚ) (ext : List ℚ) (r : ℚ)
    (code : String) :
    lookup (setReservedParams ps size ext r (sridOf code)) "SIZE" =
      some (.vStr (qToString size.1 ++ "," ++ qToString size.2)) ∧
    lookup (setReservedParams ps size ext r (sridOf code)) "BBOX" =
      some (.vStr (joinSep "," (ext.map qToString))) ∧
    lookup (setReservedParams ps size ext r (sridOf code)) "BBOXSR" =
      some (.vStr (sridOf code)) ∧
    lookup (setReservedParams ps size ext r (sridOf code)) "IMAGESR" =
      some (.vStr (sridOf code)) ∧
    sridOf "EPSG:3857" = "3857" ∧
    (∀ (g : TileGrid) (z : ℕ), r ≠ 1 →
      scaledTileSize g z r = ((g.tileSizeAt z).1 * r, (g.tileSizeAt z).2 * r)) ∧
    (∀ (b : Builder) (gfp : TileGrid) (tc : TileCoord),
      ¬ (gridOf b gfp).resolutions.length ≤ tc.z →
      (fixedTileUrlFunction b gfp tc r code).1 =
        getRequestUrl b.urls tc (scaledTileSize (gridOf b gfp) tc.z r)
          ((gridOf b gfp).tileCoordExtent tc) r code (mergedParams b)) := by
  refine ⟨lookup_setReserved_SIZE _ _ _ _ _, lookup_setReserved_BBOX _ _ _ _ _,
    lookup_setReserved_BBOXSR _ _ _ _ _, lookup_setReserved_IMAGESR _ _ _ _ _,
    by decide, ?_, ?_⟩
  · intro g z hr
    rw [scaledTileSize, if_pos hr]
  · intro b gfp tc hz
    exact fixed_fst_eq b gfp tc r code hz

/-- Witness for C5 at tile size `[512,512]` (256 scaled by ratio 2),
extent `[0,0,100,100]` and projection `EPSG:3857`. -/
theorem C5_size_bbox_srid_witness :
    lookup (setReservedParams [] ((512 : ℚ), 512) [0, 0, 100, 100] 2 (sridOf "EPSG:3857"))
        "SIZE" = some (Value.vStr "512,512") ∧
    lookup (setReservedParams [] ((512 : ℚ), 512) [0, 0, 100, 100] 2 (sridOf "EPSG:3857"))
        "BBOX" = some (Value.vStr "0,0,100,100") ∧
    lookup (setReservedParams [] ((512 : ℚ), 512) [0, 0, 100, 100] 2 (sridOf "EPSG:3857"))
        "BBOXSR" = some (Value.vStr "3857") ∧
    lookup (setReservedParams [] ((512 : ℚ), 512) [0, 0, 100, 100] 2 (sridOf "EPSG:3857"))
        "IMAGESR" = some (Value.vStr "3857") ∧
    sridOf "EPSG:3857" = "3857" ∧
    scaledTileSize ⟨[1], fun _ => ((256 : ℚ), 256), fun _ => [0, 0, 100, 100]⟩ 0 2 =
      ((512 : ℚ), 512) ∧
    (fixedTileUrlFunction ⟨some ["https://h/S/MapServer"], [], "", none, []⟩
        ⟨[1], fun _ => ((256 : ℚ), 256), fun _ => [0, 0, 100, 100]⟩ ⟨0, 0, 0⟩ 2 "EPSG:3857").1 =
      getRequestUrl (⟨some ["https://h/S/MapServer"], [], "", none, []⟩ : Builder).urls ⟨0, 0, 0⟩
        (scaledTileSize (gridOf ⟨some ["https://h/S/MapServer"], [], "", none, []⟩
          ⟨[1], fun _ => ((256 : ℚ), 256), fun _ => [0, 0, 100, 100]⟩) 0 2)
        ((gridOf ⟨some ["https://h/S/MapServer"], [], "", none, []⟩
          ⟨[1], fun _ => ((256 : ℚ), 256), fun _ => [0, 0, 100, 100]⟩).tileCoordExtent ⟨0, 0, 0⟩)
        2 "EPSG:3857"
        (mergedParams ⟨some ["https://h/S/MapServer"], [], "", none, []⟩) := by
  obtain ⟨h1, h2, h3, h4, h5, h6, h7⟩ :=
    C5_size_bbox_srid [] ((512 : ℚ), 512) [0, 0, 100, 100] 2 "EPSG:3857"
  refine ⟨by rw [h1]; decide, by rw [h2]; decide, by rw [h3]; decide, by rw [h4]; decide,
    h5, ?_, ?_⟩
  · rw [h6 ⟨[1], fun _ => ((256 : ℚ), 256), fun _ => [0, 0, 100, 100]⟩ 0 (by norm_num)]
    show ((256 : ℚ) * 2, (256 : ℚ) * 2) = ((512 : ℚ), 512)
    norm_num
  · exact h7 ⟨some ["https://h/S/MapServer"], [], "", none, []⟩
      ⟨[1], fun _ => ((256 : ℚ), 256), fun _ => [0, 0, 100, 100]⟩ ⟨0, 0, 0⟩ (by decide)

/-- C6: `updateParams` replaces the stored set by the shallow merge of
the stored set with the update (update keys overwrite, other stored
keys are retained), and the recomputed cache key is each merged entry
formatted `key-value`, joined with `/` in the mapping's order, with the
empty set giving the empty key. -/
theorem C6_update_merge_and_key (b : Builder) (u : ParamSet)
    (hu : (u.map Prod.fst).Nodup) :
    (updateParams b u).params = assign b.params u ∧
    (∀ k, lookup (updateParams b u).params k =
      (lookup u k).orElse (fun _ => lookup b.params k)) ∧
    (updateParams b u).key =
      joinSep "/" ((updateParams b u).params.map fun e => e.1 ++ "-" ++ valueToString e.2) ∧
    getKeyForParams [] = "" := by
  exact ⟨rfl, fun k => lookup_assign b.params u k hu, rfl, rfl⟩

/-- Witness for C6: merging `{B: 2, A: "3"}` into stored `{A: "1"}`
overwrites `A`, keeps the order `A` then `B`, and recomputes the key. -/
theorem C6_update_merge_and_key_witness :
    (updateParams ⟨none, [("A", Value.vStr "1")], "A-1", none, []⟩
        [("B", Value.vNum 2), ("A", Value.vStr "3")]).params =
      assign [("A", Value.vStr "1")] [("B", Value.vNum 2), ("A", Value.vStr "3")] ∧
    lookup (updateParams ⟨none, [("A", Value.vStr "1")], "A-1", none, []⟩
        [("B", Value.vNum 2), ("A", Value.vStr "3")]).params "A" = some (Value.vStr "3") ∧
    lookup (updateParams ⟨none, [("A", Value.vStr "1")], "A-1", none, []⟩
        [("B", Value.vNum 2), ("A", Value.vStr "3")]).params "B" = some (Value.vNum 2) ∧
    (updateParams ⟨none, [("A", Value.vStr "1")], "A-1", none, []⟩
        [("B", Value.vNum 2), ("A", Value.vStr "3")]).key = "A-3/B-2" := by
  obtain ⟨h1, h2, h3, _⟩ := C6_update_merge_and_key
    ⟨none, [("A", Value.vStr "1")], "A-1", none, []⟩
    [("B", Value.vNum 2), ("A", Value.vStr "3")] (by decide)
  refine ⟨h1, ?_, ?_, ?_⟩
  · rw [h2 "A"]
    decide
  · rw [h2 "B"]
    decide
  · rw [h3]
    decide

/-- C9: a build writes only the scratch extent buffer — the stored user
parameters, the cache key and the URL list are untouched — and after
`updateParams({BBOX: "x"})` the cache key of any source contains the
entry `BBOX-x`, whatever value a later build overwrites `BBOX` with in
its working copy. -/
theorem C9_build_frame (b : Builder) (gfp : TileGrid) (tc : TileCoord) (r : ℚ)
    (code : String) (b0 : Builder) :
    (fixedTileUrlFunction b gfp tc r code).2.params = b.params ∧
    (fixedTileUrlFunction b gfp tc r code).2.key = b.key ∧
    (fixedTileUrlFunction b gfp tc r code).2.urls = b.urls ∧
    (∃ x y, (updateParams b0 [("BBOX", Value.vStr "x")]).key.data =
      x ++ "BBOX-x".data ++ y) := by
  obtain ⟨h1, h2, h3, _⟩ := fixed_snd_frame b gfp tc r code
  refine ⟨h2, h3, h1, ?_⟩
  have hmem : ("BBOX", Value.vStr "x") ∈ assign b0.params [("BBOX", Value.vStr "x")] := by
    have ha : assign b0.params [("BBOX", Value.vStr "x")] =
        setParam b0.params "BBOX" (Value.vStr "x") := rfl
    rw [ha]
    exact mem_setParam _ _ _
  have hmem2 : ("BBOX" ++ "-" ++ valueToString (Value.vStr "x")) ∈
      (assign b0.params [("BBOX", Value.vStr "x")]).map
        (fun e => e.1 ++ "-" ++ valueToString e.2) :=
    List.mem_map.mpr ⟨_, hmem, rfl⟩
  obtain ⟨x, y, hxy⟩ := joinSep_mem_split "/" _ _ hmem2
  refine ⟨x, y, ?_⟩
  have hd : ("BBOX" ++ "-" ++ valueToString (Value.vStr "x")).data = "BBOX-x".data := by
    decide
  show (getKeyForParams (assign b0.params [("BBOX", Value.vStr "x")])).data =
    x ++ "BBOX-x".data ++ y
  rw [getKeyForParams, ← hd]
  exact hxy

/-- C10: the build outcome reads none of the scratch state — replacing
the scratch extent buffer, or running any interleaved build first (which
only rewrites that buffer), leaves the URL returned for the same
arguments and the same stored parameters unchanged. -/
theorem C10_deterministic (b : Builder) (gfp gfp2 : TileGrid) (tc tc2 : TileCoord)
    (r r2 : ℚ) (code code2 : String) (ext0 : List ℚ) :
    (fixedTileUrlFunction ((fixedTileUrlFunction b gfp2 tc2 r2 code2).2) gfp tc r code).1 =
      (fixedTileUrlFunction b gfp tc r code).1 ∧
    (fixedTileUrlFunction { b with tmpExtent := ext0 } gfp tc r code).1 =
      (fixedTileUrlFunction b gfp tc r code).1 := by
  obtain ⟨h1, h2, _, h4⟩ := fixed_snd_frame b gfp2 tc2 r2 code2
  exact ⟨fixed_fst_congr _ _ gfp tc r code h1 h2 h4,
    fixed_fst_congr _ _ gfp tc r code rfl rfl rfl⟩

end TileArcGISRest
